import Mathlib

/-!
Postmanify: request items built from swagger operations.

A shallow embedding of `request.go` (package `postmanify`): the three methods
`buildPostmanItem`, `buildPostmanHeaders` and `buildPostmanBody` of the
converter, followed by the properties proved about them.

Conventions of the embedding.

* Go strings are Lean strings; `len(s) > 0` is `0 < s.length` (a string has a
  positive byte length exactly when it has a character).
* A Go `interface{}` is an `Option Any`, `none` being the nil interface.
* A pointer that the code dereferences is an `Option`; dereferencing `none`
  is the run-time panic, and a function that can panic returns an `Option`
  whose `none` is that panic.
* The session header mapping `c.config.PostmanHeaders` is a Go map: a finite
  mapping with unique keys, embedded as an `AList` (the map is allocated when
  the converter is created, outside `request.go`); the mutation of the
  receiver is explicit state passing (the methods return the converter they
  leave behind).
* Go does not fix the order in which `range` visits a map. The embedding
  returns the entries in the order of the association list, and every
  statement about the returned header list is made for every permutation of
  that list.
* Functions of the repository that `request.go` calls but does not define,
  and the library functions `json.MarshalIndent` and `strings.ToUpper`, are
  the fields of `Collaborators`; the theorems hold for every value of it.
-/

namespace Postmanify

/-! ## Data model -/

/-- A non-nil Go `interface{}` value, by dynamic type. The code only ever asks
whether the dynamic type is `string`; maps and slices are kept as their JSON
text. -/
inductive Any where
  | str (s : String)
  | number (n : Int)
  | bool (b : Bool)
  | composite (json : String)
deriving DecidableEq, Repr

/-- The assertion `v, _ = x.(string)` on a non-nil `x`: the string `x` holds,
or the zero string when `x` holds a value of another type. -/
def Any.assertString : Any → String
  | .str s => s
  | _ => ""

mutual
/-- The fields of `spec.Schema` (go-openapi) that `request.go` reads:
`Type` (a `StringOrArray`), `Format`, `Properties` and `Items`. -/
inductive Schema where
  | mk (type : List String) (format : String) (properties : List (String × Schema))
      (items : Option SchemaOrArray)
/-- The type `spec.SchemaOrArray`: a single schema (may be nil) or a list. -/
inductive SchemaOrArray where
  | mk (schema : Option Schema) (schemas : List Schema)
end

/-- The field `Schema.Type`. -/
def Schema.Type_ : Schema → List String
  | .mk t _ _ _ => t

/-- The field `Schema.Format`. -/
def Schema.Format : Schema → String
  | .mk _ f _ _ => f

/-- The field `Schema.Properties`. -/
def Schema.Properties : Schema → List (String × Schema)
  | .mk _ _ p _ => p

/-- The field `Schema.Items`. -/
def Schema.Items : Schema → Option SchemaOrArray
  | .mk _ _ _ i => i

/-- The field `SchemaOrArray.Schema`. -/
def SchemaOrArray.Schema : SchemaOrArray → Option Schema
  | .mk s _ => s

/-- The method `StringOrArray.Contains` of go-openapi: membership. -/
def Contains (s : List String) (value : String) : Bool :=
  s.any (fun str => str == value)

/-- The method `SchemaOrArray.ContainsType` of go-openapi:
`if s.Schema != nil { return s.Schema.Type != nil && s.Schema.Type.Contains(name) }; return false`. -/
def SchemaOrArray.ContainsType (s : SchemaOrArray) (name : String) : Bool :=
  match s.Schema with
  | some schema => Contains schema.Type_ name
  | none => false

/-- The fields of `spec.Parameter` that `request.go` reads. -/
structure Parameter where
  Name : String
  In : String
  Required : Bool
  Default : Option Any
  Example : Option Any
  Schema : Option Postmanify.Schema

/-- The fields of `spec.Operation` that `request.go` reads. -/
structure Operation where
  Consumes : List String
  Produces : List String
  Parameters : List Parameter
  Extensions : List (String × Any)

/-- The type `postman2.Header`, with the fields `request.go` sets. -/
structure Header where
  Key : String
  Value : String
deriving DecidableEq, Repr

/-- The type `postman2.FormData`, with the fields `request.go` sets. -/
structure FormData where
  Key : String
  Value : String
  Enabled : Bool
  Type_ : String
deriving DecidableEq, Repr

/-- The type `postman2.RequestBody`, with the fields `request.go` sets. -/
structure RequestBody where
  Mode : String
  FormData : List Postmanify.FormData
  Raw : String
deriving DecidableEq, Repr

/-- The type `postman2.URL`; `request.go` only passes it along. -/
structure URL where
  Raw : String
deriving DecidableEq, Repr

/-- The type `postman2.Request`. -/
structure Request where
  Method : String
  URL : Postmanify.URL
  Header : List Postmanify.Header
  Body : RequestBody
deriving DecidableEq, Repr

/-- The type `postman2.Script`; `request.go` reads `Exec`. -/
structure Script where
  Exec : List String
deriving DecidableEq, Repr

/-- The type `postman2.Event`. -/
structure Event where
  Listen : String
  Script : Postmanify.Script
deriving DecidableEq, Repr

/-- The type `postman2.APIItem`. -/
structure APIItem where
  Name : String
  Request : Postmanify.Request
  Event : List Postmanify.Event
deriving DecidableEq, Repr

/-- The session header mapping, a Go `map[string]postman2.Header`. -/
abbrev HeaderMap := AList (fun _ : String => Header)

/-- The part of the converter's configuration that `request.go` touches. -/
structure Config where
  PostmanHeaders : HeaderMap

/-- The receiver `c *Converter`. -/
structure Converter where
  config : Config

/-- What `request.go` calls and does not define. `buildPostmanURL` and
`buildProperties` are methods of the converter, `buildPropertyDefaultValue`
and `buildPostmanScript` are functions of the package; they are taken not to
write the header mapping. `marshalIndentRaw v p i` is
`string(b)` for `b, _ := json.MarshalIndent(v, p, i)` with `v` a
`[]json.RawMessage`, `marshalIndent` the same for a `[]interface{}`, and
`toUpper` is `strings.ToUpper`. -/
structure Collaborators where
  buildPostmanURL : Converter → String → Operation → URL
  buildProperties : Converter → List (String × Schema) → String
  buildPropertyDefaultValue : List String → String → Option Any
  buildPostmanScript : List (String × Any) → Script
  marshalIndentRaw : List String → String → String → String
  marshalIndent : List (Option Any) → String → String → String
  toUpper : String → String

/-! ## Library functions -/

/-- The predicate `unicode.IsSpace`: the characters with the White_Space property. -/
def isSpace (ch : Char) : Bool :=
  let n := ch.toNat
  (9 ≤ n && n ≤ 13) || n == 32 || n == 0x85 || n == 0xA0 || n == 0x1680 ||
    (0x2000 ≤ n && n ≤ 0x200A) || n == 0x2028 || n == 0x2029 || n == 0x202F ||
    n == 0x205F || n == 0x3000

/-- The function `strings.TrimSpace`: leading and trailing white space removed. -/
def trimSpace (s : String) : String :=
  ⟨((s.data.dropWhile isSpace).reverse.dropWhile isSpace).reverse⟩

/-! ## request.go -/

/-- The value both `buildPostmanHeaders` (lines 64-71) and `buildPostmanBody`
(lines 102-109) compute for a parameter:
`if Default != nil { value, _ = Default.(string) } else if Example != nil
{ value, _ = Example.(string) } else { value = "string" }`. -/
def paramValue (param : Parameter) : String :=
  match param.Default with
  | some d => d.assertString
  | none =>
    match param.Example with
    | some e => e.assertString
    | none => "string"

/-- The assignment `c.config.PostmanHeaders[key] = header`. -/
def setHeader (c : Converter) (key : String) (header : Header) : Converter :=
  { c with config := { c.config with PostmanHeaders := c.config.PostmanHeaders.insert key header } }

/-- The first `if` of `buildPostmanHeaders` (lines 47-53). -/
def consumesStep (c : Converter) (operation : Operation) : Converter :=
  match operation.Consumes with
  | first :: _ =>
    if 0 < (trimSpace first).length then
      setHeader c "Content-Type" { Key := "Content-Type", Value := trimSpace first }
    else c
  | [] => c

/-- The second `if` of `buildPostmanHeaders` (lines 54-60). -/
def producesStep (c : Converter) (operation : Operation) : Converter :=
  match operation.Produces with
  | first :: _ =>
    if 0 < (trimSpace first).length then
      setHeader c "Accept" { Key := "Accept", Value := trimSpace first }
    else c
  | [] => c

/-- The body of the loop over the parameters in `buildPostmanHeaders` (lines 63-77). -/
def headerParamStep (c : Converter) (param : Parameter) : Converter :=
  if param.In = "header" then
    setHeader c param.Name { Key := param.Name, Value := paramValue param }
  else c

/-- The converter `buildPostmanHeaders` leaves behind: both hints, then the
parameters in order. -/
def headersAfter (c : Converter) (operation : Operation) : Converter :=
  operation.Parameters.foldl headerParamStep (producesStep (consumesStep c operation) operation)

/-- The loop `for _, header := range c.config.PostmanHeaders` (lines 80-86),
in the order of the association list. -/
def rangeHeaders (c : Converter) : List Header :=
  c.config.PostmanHeaders.entries.map Sigma.snd

/-- The method `buildPostmanHeaders`: the returned list and the converter after the call. -/
def buildPostmanHeaders (c : Converter) (operation : Operation) : List Header × Converter :=
  (rangeHeaders (headersAfter c operation), headersAfter c operation)

/-- The body of the loop of `buildPostmanBody` (lines 98-141) on the state
`(requestBody, formData)`; `none` is a nil dereference. -/
def bodyParamStep (E : Collaborators) (c : Converter)
    (state : RequestBody × List FormData) (param : Parameter) :
    Option (RequestBody × List FormData) :=
  let requestBody := state.1
  let formData :=
    if param.In = "formData" then
      state.2 ++ [{ Key := param.Name, Value := paramValue param,
                    Enabled := param.Required, Type_ := "text" }]
    else state.2
  if param.Required = true ∧ param.In = "body" then
    match param.Schema with
    | none => none
    | some schema =>
      let requestBody :=
        if Contains schema.Type_ "object" then
          { requestBody with Raw := E.buildProperties c schema.Properties }
        else requestBody
      if Contains schema.Type_ "array" then
        match schema.Items with
        | none => none
        | some items =>
          if items.ContainsType "object" then
            match items.Schema with
            | none => none
            | some itemSchema =>
              some ({ requestBody with
                        Raw := E.marshalIndentRaw [E.buildProperties c itemSchema.Properties] "" "\t" },
                    formData)
          else
            match items.Schema with
            | none => none
            | some itemSchema =>
              some ({ requestBody with
                        Raw := E.marshalIndent
                          [E.buildPropertyDefaultValue itemSchema.Type_ itemSchema.Format] "" "\t" },
                    formData)
      else some (requestBody, formData)
  else some (requestBody, formData)

/-- The loop of `buildPostmanBody` over the parameters. -/
def bodyLoop (E : Collaborators) (c : Converter) :
    List Parameter → RequestBody × List FormData → Option (RequestBody × List FormData)
  | [], state => some state
  | param :: rest, state =>
    match bodyParamStep E c state param with
    | none => none
    | some state' => bodyLoop E c rest state'

/-- The method `buildPostmanBody`; `none` is a nil dereference. -/
def buildPostmanBody (E : Collaborators) (c : Converter) (operation : Operation) :
    Option RequestBody :=
  match bodyLoop E c operation.Parameters ({ Mode := "", FormData := [], Raw := "" }, []) with
  | none => none
  | some (requestBody, formData) =>
    if 0 < formData.length then
      some { requestBody with Mode := "formdata", FormData := formData }
    else
      some { requestBody with Mode := "raw" }

/-- The method `buildPostmanItem`: the item and the converter after the call;
`none` is a nil dereference in `buildPostmanBody`. -/
def buildPostmanItem (E : Collaborators) (c : Converter) (url method : String)
    (operation : Operation) : Option (APIItem × Converter) :=
  let u := E.buildPostmanURL c url operation
  let hs := buildPostmanHeaders c operation
  let c1 := hs.2
  let request : Request :=
    { Method := E.toUpper method, URL := u, Header := hs.1,
      Body := { Mode := "", FormData := [], Raw := "" } }
  let withBody : Option Request :=
    if method = "POST" ∨ method = "PUT" ∨ method = "PATCH" then
      match buildPostmanBody E c1 operation with
      | none => none
      | some body => some { request with Body := body }
    else some request
  match withBody with
  | none => none
  | some request =>
    let script := E.buildPostmanScript operation.Extensions
    let event : List Event :=
      if 0 < script.Exec.length then [{ Listen := "test", Script := script }] else []
    some ({ Name := url, Request := request, Event := event }, c1)

/-! ## Closed forms used in the statements -/

/-- The form field appended for a parameter located in `formData` (lines 111-116). -/
def formField (param : Parameter) : FormData :=
  { Key := param.Name, Value := paramValue param, Enabled := param.Required, Type_ := "text" }

/-- The form fields of a parameter list: the `formData` parameters, in order. -/
def formFields (params : List Parameter) : List FormData :=
  (params.filter (fun param => param.In = "formData")).map formField

/-- The parameters the raw branch looks at: required and located in `body`. -/
def isRequiredBody (param : Parameter) : Bool :=
  param.Required && param.In == "body"

/-- The pointers that `buildPostmanBody` dereferences for a parameter are all
non-nil: a required body parameter has a schema, and when the type set of that
schema contains `array` it has items with a single item schema. -/
def derefOk (param : Parameter) : Bool :=
  if isRequiredBody param then
    match param.Schema with
    | none => false
    | some schema =>
      if Contains schema.Type_ "array" then
        match schema.Items with
        | none => false
        | some items => items.Schema.isSome
      else true
  else true

/-- The raw document after one parameter, given the raw document before it,
for a parameter that passes `derefOk`. -/
def rawStep (E : Collaborators) (c : Converter) (raw : String) (param : Parameter) : String :=
  if isRequiredBody param then
    match param.Schema with
    | none => raw
    | some schema =>
      let raw1 := if Contains schema.Type_ "object" then E.buildProperties c schema.Properties else raw
      if Contains schema.Type_ "array" then
        match schema.Items with
        | none => raw1
        | some items =>
          match items.Schema with
          | none => raw1
          | some itemSchema =>
            if Contains itemSchema.Type_ "object" then
              E.marshalIndentRaw [E.buildProperties c itemSchema.Properties] "" "\t"
            else
              E.marshalIndent [E.buildPropertyDefaultValue itemSchema.Type_ itemSchema.Format] "" "\t"
      else raw1
  else raw

/-- The header an operation's hint list writes under `key`, if it writes one. -/
def hintWrites (key : String) (hints : List String) : List (String × Header) :=
  match hints with
  | first :: _ =>
    if 0 < (trimSpace first).length then [(key, { Key := key, Value := trimSpace first })] else []
  | [] => []

/-- The writes of the loop over the parameters, in order. -/
def paramWrites (params : List Parameter) : List (String × Header) :=
  (params.filter (fun param => param.In = "header")).map
    (fun param => (param.Name, { Key := param.Name, Value := paramValue param }))

/-- All writes `buildPostmanHeaders` performs for an operation, in order. -/
def writes (operation : Operation) : List (String × Header) :=
  hintWrites "Content-Type" operation.Consumes ++ hintWrites "Accept" operation.Produces ++
    paramWrites operation.Parameters

/-- A list of writes applied to the header mapping, in order. -/
def applyWrites (c : Converter) (ws : List (String × Header)) : Converter :=
  ws.foldl (fun c w => setHeader c w.1 w.2) c

/-- The header the last write to `key` in a list of writes stores, if any. -/
def lastWrite : List (String × Header) → String → Option Header
  | [], _ => none
  | w :: ws, key => (lastWrite ws key).or (if w.1 = key then some w.2 else none)

/-- The operation writes the entry of `key`: it is "Content-Type" or "Accept"
with a non-blank first hint, or the name of a header parameter. -/
def writesKey (operation : Operation) (key : String) : Bool :=
  (key == "Content-Type" &&
      (operation.Consumes.head?.any (fun first => decide (0 < (trimSpace first).length)))) ||
    (key == "Accept" &&
      (operation.Produces.head?.any (fun first => decide (0 < (trimSpace first).length)))) ||
    operation.Parameters.any (fun param => param.In == "header" && param.Name == key)

/-- Every entry of the header mapping has its mapping key as `Key` field. -/
def KeysMatch (c : Converter) : Prop :=
  ∀ e ∈ c.config.PostmanHeaders.entries, e.2.Key = e.1

/-- The parameters that set the raw document: required, located in `body`,
with a schema whose type set contains "object" or "array". -/
def decidesRaw (param : Parameter) : Bool :=
  isRequiredBody param &&
    (match param.Schema with
     | some schema => Contains schema.Type_ "object" || Contains schema.Type_ "array"
     | none => false)

/-- A parameter without influence on the body: not located in `formData`,
and either not both required and located in `body`, or with a schema whose
type set contains neither "object" nor "array". -/
def bodyInert (param : Parameter) : Bool :=
  param.In != "formData" &&
    (!isRequiredBody param ||
      (match param.Schema with
       | some schema => !Contains schema.Type_ "object" && !Contains schema.Type_ "array"
       | none => false))

/-- The header a hint list contributes under `key`: the trimmed first hint
when it is not blank. -/
def hintHeader (key : String) (hints : List String) : Option Header :=
  match hints.head? with
  | some first =>
    if 0 < (trimSpace first).length then some { Key := key, Value := trimSpace first } else none
  | none => none

/-! ## Sample inputs -/

/-- Stand-ins for the collaborators, to evaluate the embedding on concrete
inputs: the property names between brackets for `buildProperties`, the type name
as a string value for `buildPropertyDefaultValue`, one `exec` line per
extension, brackets around the elements for the two marshallers and the ASCII
upper case. -/
def sampleCollaborators : Collaborators where
  buildPostmanURL := fun _ url _ => { Raw := url }
  buildProperties := fun _ props => "object(" ++ ",".intercalate (props.map Prod.fst) ++ ")"
  buildPropertyDefaultValue := fun type _ => type.head?.map Any.str
  buildPostmanScript := fun ext => { Exec := ext.map Prod.fst }
  marshalIndentRaw := fun docs _ indent => "[\n" ++ indent ++ ",".intercalate docs ++ "\n]"
  marshalIndent := fun vals _ indent =>
    "[\n" ++ indent ++
      ",".intercalate (vals.map (fun v => (v.map Any.assertString).getD "null")) ++ "\n]"
  toUpper := fun s => ⟨s.data.map Char.toUpper⟩

/-- The converter at the start of a session: no header collected yet. -/
def emptyConverter : Converter :=
  { config := { PostmanHeaders := ∅ } }

/-- An operation declaring a `formData` parameter and a required body
parameter that has no schema. -/
def uploadOperation : Operation :=
  { Consumes := [], Produces := [],
    Parameters :=
      [{ Name := "file", In := "formData", Required := true, Default := none, Example := none,
         Schema := none },
       { Name := "payload", In := "body", Required := true, Default := none, Example := none,
         Schema := none }],
    Extensions := [] }

/-- The schema `object` with the properties `id: integer` and `name: string`. -/
def petSchema : Schema :=
  .mk ["object"] ""
    [("id", .mk ["integer"] "int64" [] none), ("name", .mk ["string"] "" [] none)] none

/-- An optional query parameter, then a required body parameter of schema `petSchema`. -/
def createPet : Operation :=
  { Consumes := ["application/json"], Produces := ["application/json"],
    Parameters :=
      [{ Name := "dryRun", In := "query", Required := false, Default := none, Example := none,
         Schema := none },
       { Name := "pet", In := "body", Required := true, Default := none, Example := none,
         Schema := some petSchema }],
    Extensions := [] }

/-- A required body parameter whose schema is an array of `petSchema`. -/
def createPets : Operation :=
  { Consumes := ["application/json"], Produces := ["application/json"],
    Parameters :=
      [{ Name := "pets", In := "body", Required := true, Default := none, Example := none,
         Schema := some (.mk ["array"] "" [] (some (.mk (some petSchema) []))) }],
    Extensions := [] }

/-- A header parameter with a declared numeric default and a declared string example. -/
def limitOperation : Operation :=
  { Consumes := [], Produces := [],
    Parameters :=
      [{ Name := "X-Limit", In := "header", Required := false, Default := some (.number 5),
         Example := some (.str "10"), Schema := none }],
    Extensions := [] }

/-- A later operation: one header parameter of its own, no hint. -/
def listPets : Operation :=
  { Consumes := [], Produces := [],
    Parameters :=
      [{ Name := "X-Page", In := "header", Required := false, Default := some (.str "1"),
         Example := none, Schema := none }],
    Extensions := [] }

/-- A required body parameter of schema `petSchema`. -/
def petParam : Parameter :=
  { Name := "pet", In := "body", Required := true, Default := none, Example := none,
    Schema := some petSchema }

/-- A required body parameter whose schema is of type string. -/
def noteParam : Parameter :=
  { Name := "note", In := "body", Required := true, Default := none, Example := none,
    Schema := some (.mk ["string"] "" [] none) }

/-- A required formData parameter without default or example. -/
def fileParam : Parameter :=
  { Name := "file", In := "formData", Required := true, Default := none, Example := none,
    Schema := none }

/-- Two required body parameters: an object, then a string. -/
def annotatePet : Operation :=
  { Consumes := [], Produces := [], Parameters := [petParam, noteParam], Extensions := [] }

/-- The string body parameter of `annotatePet` alone. -/
def annotate : Operation :=
  { Consumes := [], Produces := [], Parameters := [noteParam], Extensions := [] }

/-- A formData parameter and a required body parameter of type object. -/
def uploadPet : Operation :=
  { Consumes := [], Produces := [], Parameters := [fileParam, petParam], Extensions := [] }

/-- A formData parameter and a required body parameter of type string. -/
def uploadFile : Operation :=
  { Consumes := [], Produces := [], Parameters := [fileParam, noteParam], Extensions := [] }

/-- The operation `createPet` with a test-script extension. -/
def testedPet : Operation :=
  { Consumes := ["application/json"], Produces := ["application/json"],
    Parameters := [petParam],
    Extensions := [("x-postman-test", Any.str "tests[\"ok\"] = true;")] }

/-- A formData parameter whose declared default is a boolean, with a string example. -/
def flagOperation : Operation :=
  { Consumes := [], Produces := [],
    Parameters :=
      [{ Name := "force", In := "formData", Required := false, Default := some (.bool true),
         Example := some (.str "yes"), Schema := none }],
    Extensions := [] }

/-- An earlier operation with the content-type hint "text/xml". -/
def xmlOperation : Operation :=
  { Consumes := ["text/xml"], Produces := [], Parameters := [], Extensions := [] }

/-- A blank first content-type hint followed by a non-blank one; no accept hint. -/
def blankHintOperation : Operation :=
  { Consumes := ["  \t", "application/json"], Produces := [], Parameters := [],
    Extensions := [] }

/-- A content-type hint, a header parameter named "Content-Type" and two
header parameters named "X-Trace". -/
def overrideOperation : Operation :=
  { Consumes := ["application/json"], Produces := [],
    Parameters :=
      [{ Name := "Content-Type", In := "header", Required := false,
         Default := some (.str "text/xml"), Example := none, Schema := none },
       { Name := "X-Trace", In := "header", Required := false, Default := some (.str "a"),
         Example := none, Schema := none },
       { Name := "X-Trace", In := "header", Required := false, Default := some (.str "b"),
         Example := none, Schema := none }],
    Extensions := [] }

/-- A required body parameter of type array whose items carry no single schema. -/
def tupleOperation : Operation :=
  { Consumes := [], Produces := [],
    Parameters :=
      [{ Name := "pair", In := "body", Required := true, Default := none, Example := none,
         Schema := some (.mk ["array"] "" [] (some (.mk none [petSchema, petSchema]))) }],
    Extensions := [] }

/-! ## Lemmas on the body loop -/

theorem bodyParamStep_eq (E : Collaborators) (c : Converter) (rb : RequestBody)
    (fd : List FormData) (param : Parameter) :
    bodyParamStep E c (rb, fd) param =
      if derefOk param then
        some ({ rb with Raw := rawStep E c rb.Raw param },
              fd ++ formFields [param])
      else none := by
  unfold bodyParamStep derefOk rawStep isRequiredBody formFields formField SchemaOrArray.ContainsType
  rcases param with ⟨name, loc, req, dflt, ex, schema⟩
  by_cases hreq : req = true <;> by_cases hbody : loc = "body" <;>
    by_cases hform : loc = "formData" <;> simp [hreq, hbody, hform, List.filter]
  all_goals first
    | (subst hbody; exact absurd hform (by decide))
    | skip
  all_goals
    cases schema with
    | none => simp
    | some schema =>
      by_cases hobj : Contains schema.Type_ "object" = true <;>
        by_cases harr : Contains schema.Type_ "array" = true <;> simp [hobj, harr]
      all_goals
        cases schema.Items with
        | none => simp
        | some items =>
          cases hit : items.Schema with
          | none => simp [hit]
          | some itemSchema =>
            by_cases hio : Contains itemSchema.Type_ "object" = true <;> simp [hit, hio]

theorem bodyLoop_eq (E : Collaborators) (c : Converter) (params : List Parameter) :
    ∀ (rb : RequestBody) (fd : List FormData),
      bodyLoop E c params (rb, fd) =
        if params.all derefOk then
          some ({ rb with Raw := params.foldl (rawStep E c) rb.Raw }, fd ++ formFields params)
        else none := by
  induction params with
  | nil => intro rb fd; simp [bodyLoop, formFields]
  | cons param rest ih =>
    intro rb fd
    rw [bodyLoop, bodyParamStep_eq]
    by_cases hok : derefOk param = true
    · simp only [hok, if_true, ih, List.all_cons, Bool.true_and, List.foldl_cons]
      have : fd ++ formFields [param] ++ formFields rest = fd ++ formFields (param :: rest) := by
        simp [formFields, List.filter_cons]
        split <;> simp
      simp [this]
    · simp [hok]

theorem buildPostmanBody_eq (E : Collaborators) (c : Converter) (operation : Operation) :
    buildPostmanBody E c operation =
      if operation.Parameters.all derefOk then
        some { Mode := if (formFields operation.Parameters).isEmpty then "raw" else "formdata",
               FormData := formFields operation.Parameters,
               Raw := operation.Parameters.foldl (rawStep E c) "" }
      else none := by
  unfold buildPostmanBody
  rw [bodyLoop_eq]
  by_cases hok : operation.Parameters.all derefOk = true
  · simp only [hok, if_true, List.nil_append]
    cases h : formFields operation.Parameters with
    | nil => simp
    | cons f fs => simp
  · simp [hok]

theorem rawStep_of_not_requiredBody (E : Collaborators) (c : Converter) (raw : String)
    (param : Parameter) (h : isRequiredBody param = false) : rawStep E c raw param = raw := by
  simp [rawStep, h]

theorem derefOk_of_not_requiredBody (param : Parameter) (h : isRequiredBody param = false) :
    derefOk param = true := by
  simp [derefOk, h]

theorem foldl_rawStep_filter (E : Collaborators) (c : Converter) (params : List Parameter) :
    ∀ raw : String,
      params.foldl (rawStep E c) raw = (params.filter isRequiredBody).foldl (rawStep E c) raw := by
  induction params with
  | nil => intro raw; rfl
  | cons param rest ih =>
    intro raw
    cases h : isRequiredBody param with
    | true => simp [List.filter_cons, h, ih]
    | false => simp [List.filter_cons, h, ih, rawStep_of_not_requiredBody]

theorem all_derefOk_iff_filter (params : List Parameter) :
    params.all derefOk = (params.filter isRequiredBody).all derefOk := by
  induction params with
  | nil => rfl
  | cons param rest ih =>
    cases h : isRequiredBody param with
    | true => simp [List.filter_cons, h, ih]
    | false => simp [List.filter_cons, h, ih, derefOk_of_not_requiredBody]

theorem formFields_eq_nil (params : List Parameter)
    (h : ∀ p ∈ params, p.In ≠ "formData") : formFields params = [] := by
  simp only [formFields, List.map_eq_nil_iff, List.filter_eq_nil_iff]
  intro p hp
  simpa using h p hp

/-- The body for an operation without `formData` parameter whose required
body parameters are exactly the single `param`. -/
theorem buildPostmanBody_single (E : Collaborators) (c : Converter) (operation : Operation)
    (param : Parameter) (hno : ∀ p ∈ operation.Parameters, p.In ≠ "formData")
    (honly : operation.Parameters.filter isRequiredBody = [param]) :
    buildPostmanBody E c operation =
      if derefOk param then
        some { Mode := "raw", FormData := [], Raw := rawStep E c "" param }
      else none := by
  rw [buildPostmanBody_eq, all_derefOk_iff_filter, foldl_rawStep_filter, honly,
    formFields_eq_nil _ hno]
  simp

/-! ## Lemmas on the header mapping -/

theorem applyWrites_append (c : Converter) (ws vs : List (String × Header)) :
    applyWrites c (ws ++ vs) = applyWrites (applyWrites c ws) vs := by
  simp [applyWrites, List.foldl_append]

theorem consumesStep_eq (c : Converter) (operation : Operation) :
    consumesStep c operation = applyWrites c (hintWrites "Content-Type" operation.Consumes) := by
  unfold consumesStep hintWrites applyWrites
  cases operation.Consumes with
  | nil => rfl
  | cons first rest => by_cases h : 0 < (trimSpace first).length <;> simp [h]

theorem producesStep_eq (c : Converter) (operation : Operation) :
    producesStep c operation = applyWrites c (hintWrites "Accept" operation.Produces) := by
  unfold producesStep hintWrites applyWrites
  cases operation.Produces with
  | nil => rfl
  | cons first rest => by_cases h : 0 < (trimSpace first).length <;> simp [h]

theorem foldl_headerParamStep_eq (params : List Parameter) :
    ∀ c : Converter, params.foldl headerParamStep c = applyWrites c (paramWrites params) := by
  induction params with
  | nil => intro c; rfl
  | cons param rest ih =>
    intro c
    rw [List.foldl_cons, ih]
    by_cases h : param.In = "header"
    · simp [headerParamStep, paramWrites, applyWrites, List.filter_cons, h]
    · simp [headerParamStep, paramWrites, applyWrites, List.filter_cons, h]

theorem headersAfter_eq (c : Converter) (operation : Operation) :
    headersAfter c operation = applyWrites c (writes operation) := by
  rw [headersAfter, foldl_headerParamStep_eq, producesStep_eq, consumesStep_eq, writes,
    applyWrites_append, applyWrites_append]

theorem lookup_setHeader (c : Converter) (key : String) (header : Header) (k : String) :
    (setHeader c key header).config.PostmanHeaders.lookup k =
      if key = k then some header else c.config.PostmanHeaders.lookup k := by
  by_cases h : key = k
  · subst h; simp [setHeader, AList.lookup_insert]
  · simp [setHeader, h, AList.lookup_insert_ne (Ne.symm h)]

theorem lookup_applyWrites (ws : List (String × Header)) (k : String) :
    ∀ c : Converter,
      (applyWrites c ws).config.PostmanHeaders.lookup k =
        (lastWrite ws k).or (c.config.PostmanHeaders.lookup k) := by
  induction ws with
  | nil => intro c; simp [applyWrites, lastWrite]
  | cons w rest ih =>
    intro c
    have hstep : applyWrites c (w :: rest) = applyWrites (setHeader c w.1 w.2) rest := rfl
    rw [hstep, ih, lookup_setHeader, lastWrite]
    cases lastWrite rest k <;> by_cases h : w.1 = k <;> simp [h]

theorem lookup_headersAfter (c : Converter) (operation : Operation) (k : String) :
    (headersAfter c operation).config.PostmanHeaders.lookup k =
      (lastWrite (writes operation) k).or (c.config.PostmanHeaders.lookup k) := by
  rw [headersAfter_eq, lookup_applyWrites]

theorem lastWrite_append (ws vs : List (String × Header)) (k : String) :
    lastWrite (ws ++ vs) k = (lastWrite vs k).or (lastWrite ws k) := by
  induction ws with
  | nil => simp [lastWrite]
  | cons w rest ih =>
    rw [List.cons_append, lastWrite, lastWrite, ih]
    cases lastWrite vs k <;> cases lastWrite rest k <;> simp

theorem lastWrite_eq_none (ws : List (String × Header)) (k : String)
    (h : ∀ w ∈ ws, w.1 ≠ k) : lastWrite ws k = none := by
  induction ws with
  | nil => rfl
  | cons w rest ih =>
    have h1 : w.1 ≠ k := h w (List.mem_cons_self _ _)
    have h2 : lastWrite rest k = none := ih (fun v hv => h v (List.mem_cons_of_mem _ hv))
    simp [lastWrite, h1, h2]

theorem lastWrite_key (ws : List (String × Header)) (k : String) (header : Header)
    (hkey : ∀ w ∈ ws, w.2.Key = w.1) (h : lastWrite ws k = some header) : header.Key = k := by
  induction ws with
  | nil => simp [lastWrite] at h
  | cons w rest ih =>
    rw [lastWrite, Option.or_eq_some] at h
    rcases h with h | ⟨_, h⟩
    · exact ih (fun v hv => hkey v (List.mem_cons_of_mem _ hv)) h
    · by_cases hw : w.1 = k
      · simp only [hw, if_true, Option.some.injEq] at h
        rw [← h, hkey w (List.mem_cons_self _ _), hw]
      · simp [hw] at h

theorem writes_key (operation : Operation) : ∀ w ∈ writes operation, w.2.Key = w.1 := by
  intro w hw
  simp only [writes, List.mem_append] at hw
  rcases hw with (hw | hw) | hw
  · unfold hintWrites at hw
    split at hw
    · split at hw
      · simp only [List.mem_singleton] at hw; rw [hw]
      · simp at hw
    · simp at hw
  · unfold hintWrites at hw
    split at hw
    · split at hw
      · simp only [List.mem_singleton] at hw; rw [hw]
      · simp at hw
    · simp at hw
  · simp only [paramWrites, List.mem_map] at hw
    obtain ⟨p, _, rfl⟩ := hw
    rfl

theorem lastWrite_writes_of_not_writesKey (operation : Operation) (k : String)
    (h : writesKey operation k = false) : lastWrite (writes operation) k = none := by
  apply lastWrite_eq_none
  intro w hw hk
  simp only [writesKey, Bool.or_eq_false_iff, Bool.and_eq_false_iff, List.any_eq_false,
    Bool.and_eq_true, beq_iff_eq, not_and] at h
  obtain ⟨⟨hc, ha⟩, hp⟩ := h
  simp only [writes, List.mem_append] at hw
  rcases hw with (hw | hw) | hw
  · unfold hintWrites at hw
    split at hw
    · rename_i first rest hcons
      split at hw
      · rename_i hpos
        simp only [List.mem_singleton] at hw
        rw [hw] at hk
        rcases hc with hc | hc
        · simp [← hk] at hc
        · simp [hcons, hpos] at hc
      · simp at hw
    · simp at hw
  · unfold hintWrites at hw
    split at hw
    · rename_i first rest hcons
      split at hw
      · rename_i hpos
        simp only [List.mem_singleton] at hw
        rw [hw] at hk
        rcases ha with ha | ha
        · simp [← hk] at ha
        · simp [hcons, hpos] at ha
      · simp at hw
    · simp at hw
  · simp only [paramWrites, List.mem_map, List.mem_filter, decide_eq_true_eq] at hw
    obtain ⟨p, ⟨hp1, hp2⟩, rfl⟩ := hw
    exact hp p hp1 hp2 hk

theorem keysMatch_iff_lookup (c : Converter) :
    KeysMatch c ↔ ∀ k header, c.config.PostmanHeaders.lookup k = some header → header.Key = k := by
  constructor
  · intro h k header hl
    exact h ⟨k, header⟩ (AList.mem_lookup_iff.mp hl)
  · intro h e he
    exact h e.1 e.2 (AList.mem_lookup_iff.mpr he)

theorem keysMatch_headersAfter (c : Converter) (operation : Operation) (h : KeysMatch c) :
    KeysMatch (headersAfter c operation) := by
  rw [keysMatch_iff_lookup] at h ⊢
  intro k header hl
  rw [lookup_headersAfter, Option.or_eq_some] at hl
  rcases hl with hl | ⟨_, hl⟩
  · exact lastWrite_key _ _ _ (writes_key operation) hl
  · exact h k header hl

/-- Under `KeysMatch`, the headers of key `k` in the range of the mapping are
the single entry stored under `k`. -/
theorem filter_rangeHeaders (c : Converter) (k : String) (header : Header)
    (hkeys : KeysMatch c) (hl : c.config.PostmanHeaders.lookup k = some header) :
    (rangeHeaders c).filter (fun h => h.Key = k) = [header] := by
  unfold rangeHeaders
  unfold KeysMatch at hkeys
  unfold AList.lookup at hl
  have hnd := c.config.PostmanHeaders.nodupKeys
  generalize c.config.PostmanHeaders.entries = l at hkeys hl hnd
  induction l with
  | nil => simp at hl
  | cons e rest ih =>
    rw [List.nodupKeys_cons] at hnd
    have he : e.2.Key = e.1 := hkeys e (List.mem_cons_self _ _)
    have hrest : ∀ e ∈ rest, e.2.Key = e.1 := fun x hx => hkeys x (List.mem_cons_of_mem _ hx)
    by_cases hk : e.1 = k
    · obtain ⟨ek, ev⟩ := e
      simp only at hk he
      subst hk
      rw [List.dlookup_cons_eq] at hl
      simp only [Option.some.injEq] at hl
      subst hl
      have hnone : (rest.map Sigma.snd).filter (fun h => h.Key = ek) = [] := by
        simp only [List.filter_eq_nil_iff, List.mem_map, decide_eq_true_eq]
        rintro h ⟨x, hx, rfl⟩ hxk
        apply hnd.1
        rw [List.mem_keys]
        refine ⟨x.2, ?_⟩
        have : x.1 = ek := by rw [← hrest x hx, hxk]
        rw [← this]
        exact hx
      simp [List.filter_cons, he, hnone]
    · rw [List.dlookup_cons_ne _ _ (Ne.symm hk)] at hl
      have hne : ¬ e.2.Key = k := by rw [he]; exact hk
      simp only [List.map_cons, List.filter_cons, hne, decide_False, Bool.false_eq_true, if_false]
      exact ih hrest hl hnd.2

theorem paramWrites_append (ps qs : List Parameter) :
    paramWrites (ps ++ qs) = paramWrites ps ++ paramWrites qs := by
  simp [paramWrites, List.filter_append]

theorem lastWrite_paramWrites_none (params : List Parameter) (k : String)
    (h : ∀ p ∈ params, p.In = "header" → p.Name ≠ k) : lastWrite (paramWrites params) k = none := by
  apply lastWrite_eq_none
  intro w hw
  simp only [paramWrites, List.mem_map, List.mem_filter, decide_eq_true_eq] at hw
  obtain ⟨p, ⟨hp1, hp2⟩, rfl⟩ := hw
  exact h p hp1 hp2

theorem lastWrite_hintWrites_ne (key k : String) (hints : List String) (h : key ≠ k) :
    lastWrite (hintWrites key hints) k = none := by
  apply lastWrite_eq_none
  intro w hw
  unfold hintWrites at hw
  split at hw
  · split at hw
    · simp only [List.mem_singleton] at hw; rw [hw]; exact h
    · simp at hw
  · simp at hw

theorem lastWrite_hintWrites_self (key first : String) (rest : List String)
    (h : 0 < (trimSpace first).length) :
    lastWrite (hintWrites key (first :: rest)) key =
      some { Key := key, Value := trimSpace first } := by
  simp [hintWrites, h, lastWrite]

/-- The entry of `key` after the call, for a key written by its hint and by no
header parameter. -/
theorem lookup_headersAfter_hint (c : Converter) (operation : Operation) (key : String)
    (hkey : key = "Content-Type" ∨ key = "Accept") (first : String) (rest : List String)
    (hhint : (if key = "Content-Type" then operation.Consumes else operation.Produces) =
      first :: rest)
    (hpos : 0 < (trimSpace first).length)
    (hparams : ∀ p ∈ operation.Parameters, p.In = "header" → p.Name ≠ key) :
    (headersAfter c operation).config.PostmanHeaders.lookup key =
      some { Key := key, Value := trimSpace first } := by
  rw [lookup_headersAfter, writes, lastWrite_append, lastWrite_append,
    lastWrite_paramWrites_none _ _ hparams]
  rcases hkey with rfl | rfl
  · simp only [if_true] at hhint
    rw [hhint, lastWrite_hintWrites_self _ _ _ hpos,
      lastWrite_hintWrites_ne "Accept" "Content-Type" _ (by decide)]
    simp
  · simp only [show ("Accept" = "Content-Type") = False from by decide, if_false] at hhint
    rw [hhint, lastWrite_hintWrites_self _ _ _ hpos]
    simp

theorem entries_perm_of_lookup_eq (c d : Converter)
    (h : ∀ k, c.config.PostmanHeaders.lookup k = d.config.PostmanHeaders.lookup k) :
    c.config.PostmanHeaders.entries.Perm d.config.PostmanHeaders.entries := by
  apply List.lookup_ext c.config.PostmanHeaders.nodupKeys d.config.PostmanHeaders.nodupKeys
  intro x y
  have := h x
  unfold AList.lookup at this
  rw [this]

theorem map_key_rangeHeaders (c : Converter) (h : KeysMatch c) :
    (rangeHeaders c).map Header.Key = c.config.PostmanHeaders.keys := by
  unfold rangeHeaders AList.keys List.keys
  rw [List.map_map]
  apply List.map_congr_left
  intro e he
  exact h e he

/-! ## The request item and the body -/

/-- C1: for a method string other than "POST", "PUT" and "PATCH",
`buildPostmanItem` returns an item (it cannot fail) whose body is the zero
body: empty mode, no form field, empty raw document, whatever the parameters
of the operation. -/
theorem buildPostmanItem_zero_body (E : Collaborators) (c : Converter) (url method : String)
    (operation : Operation) (hPost : method ≠ "POST") (hPut : method ≠ "PUT")
    (hPatch : method ≠ "PATCH") :
    ∃ item, buildPostmanItem E c url method operation = some (item, headersAfter c operation) ∧
      item.Request.Body = { Mode := "", FormData := [], Raw := "" } := by
  simp [buildPostmanItem, hPost, hPut, hPatch, buildPostmanHeaders]

theorem buildPostmanItem_zero_body_witness :
    "GET" ≠ "POST" ∧ "GET" ≠ "PUT" ∧ "GET" ≠ "PATCH" ∧ ∃ item, buildPostmanItem sampleCollaborators emptyConverter "/upload" "GET" uploadOperation =
        some (item, headersAfter emptyConverter uploadOperation) ∧
      item.Request.Body = { Mode := "", FormData := [], Raw := "" } :=
  ⟨by decide, by decide, by decide,
    buildPostmanItem_zero_body sampleCollaborators emptyConverter "/upload" "GET" uploadOperation
      (by decide) (by decide) (by decide)⟩

/-- C2: `buildPostmanBody` fails exactly when a nil pointer is dereferenced,
and otherwise its form-field list is the list of the parameters located in
"formData", in their order, each mapped to the field with the parameter's
name as key, its required flag as enabled flag, type "text" and the resolved
value, which is "string" when neither default nor example is declared. A
single required formData parameter "file" gives mode "formdata" and the one
enabled field "file" of value "string". -/
theorem buildPostmanBody_formData (E : Collaborators) (c : Converter) (operation : Operation) :
    (buildPostmanBody E c operation).map RequestBody.FormData =
        (if operation.Parameters.all derefOk then
          some ((operation.Parameters.filter (fun param => param.In = "formData")).map
            (fun param =>
              { Key := param.Name
                Value :=
                  match param.Default, param.Example with
                  | some d, _ => d.assertString
                  | none, some e => e.assertString
                  | none, none => "string"
                Enabled := param.Required
                Type_ := "text" }))
        else none) ∧
      ∀ (consumes produces : List String) (extensions : List (String × Any))
        (schema : Option Schema),
        buildPostmanBody E c
            { Consumes := consumes, Produces := produces,
              Parameters := [{ Name := "file", In := "formData", Required := true,
                               Default := none, Example := none, Schema := schema }],
              Extensions := extensions } =
          some { Mode := "formdata",
                 FormData := [{ Key := "file", Value := "string", Enabled := true, Type_ := "text" }],
                 Raw := "" } := by
  constructor
  · rw [buildPostmanBody_eq]
    split
    · simp only [Option.map_some', formFields, Option.some.injEq]
      apply List.map_congr_left
      intro param _
      simp only [formField, paramValue]
      cases param.Default <;> cases param.Example <;> rfl
    · rfl
  · intro consumes produces extensions schema
    rw [buildPostmanBody_eq]
    simp [derefOk, isRequiredBody, formFields, formField, paramValue, rawStep]

/-- C3: `buildPostmanBody` fails exactly when a nil pointer is dereferenced,
and otherwise the mode of the body is "formdata" when some parameter is
located in "formData" and "raw" when none is; there is no other mode. -/
theorem buildPostmanBody_mode (E : Collaborators) (c : Converter) (operation : Operation) :
    (buildPostmanBody E c operation).map RequestBody.Mode =
      if operation.Parameters.all derefOk then
        some (if operation.Parameters.any (fun param => param.In == "formData")
              then "formdata" else "raw")
      else none := by
  rw [buildPostmanBody_eq]
  split
  · simp only [Option.map_some', Option.some.injEq, formFields, List.isEmpty_eq_true,
      List.map_eq_nil_iff, List.filter_eq_nil_iff]
    by_cases h : operation.Parameters.any (fun param => param.In == "formData") = true
    · rw [if_pos h, if_neg]
      simp only [List.any_eq_true, beq_iff_eq] at h
      obtain ⟨p, hp, hin⟩ := h
      intro hall
      exact absurd (hall p hp) (by simp [hin])
    · rw [if_neg h, if_pos]
      intro p hp
      simp only [List.any_eq_true, beq_iff_eq, not_exists, not_and] at h
      simpa using h p hp
  · rfl

/-- C9: for an operation with no formData parameter whose only required body
parameter has a schema with "object" and without "array" in its type set,
`buildPostmanBody` returns mode "raw", no form field, and as raw document
what `buildProperties` returns for the properties of that schema, unmodified. -/
theorem buildPostmanBody_object (E : Collaborators) (c : Converter) (operation : Operation)
    (param : Parameter) (schema : Schema)
    (hno : ∀ p ∈ operation.Parameters, p.In ≠ "formData")
    (honly : operation.Parameters.filter (fun p => p.Required && p.In == "body") = [param])
    (hschema : param.Schema = some schema)
    (hobj : Contains schema.Type_ "object" = true)
    (harr : Contains schema.Type_ "array" = false) :
    buildPostmanBody E c operation =
      some { Mode := "raw", FormData := [], Raw := E.buildProperties c schema.Properties } := by
  have hreq : isRequiredBody param = true :=
    (List.mem_filter.mp (honly ▸ List.mem_singleton_self param)).2
  rw [buildPostmanBody_single E c operation param hno honly]
  simp [derefOk, rawStep, hreq, hschema, hobj, harr]

theorem buildPostmanBody_object_witness :
    (∀ p ∈ createPet.Parameters, p.In ≠ "formData") ∧
      createPet.Parameters.filter (fun p => p.Required && p.In == "body") =
        [{ Name := "pet", In := "body", Required := true, Default := none, Example := none,
           Schema := some petSchema }] ∧
      Contains petSchema.Type_ "object" = true ∧ Contains petSchema.Type_ "array" = false ∧
      buildPostmanBody sampleCollaborators emptyConverter createPet =
        some { Mode := "raw", FormData := [], Raw := "object(id,name)" } :=
  ⟨by decide, rfl, by decide, by decide,
    buildPostmanBody_object sampleCollaborators emptyConverter createPet
      { Name := "pet", In := "body", Required := true, Default := none, Example := none,
        Schema := some petSchema }
      petSchema (by decide) rfl rfl (by decide) (by decide)⟩

/-- C10: for an operation with no formData parameter whose only required body
parameter has a schema with "array" in its type set and a single item schema,
`buildPostmanBody` returns mode "raw" and, as raw document, the result of
`json.MarshalIndent` with indent "\t" on a one-element sequence: the document
`buildProperties` returns for the item schema's properties when the item schema
is of type object, and otherwise the scalar `buildPropertyDefaultValue` returns
for the item schema's type and format. -/
theorem buildPostmanBody_array (E : Collaborators) (c : Converter) (operation : Operation)
    (param : Parameter) (schema : Schema) (items : SchemaOrArray) (itemSchema : Schema)
    (hno : ∀ p ∈ operation.Parameters, p.In ≠ "formData")
    (honly : operation.Parameters.filter (fun p => p.Required && p.In == "body") = [param])
    (hschema : param.Schema = some schema)
    (harr : Contains schema.Type_ "array" = true)
    (hitems : schema.Items = some items)
    (hitem : items.Schema = some itemSchema) :
    buildPostmanBody E c operation =
      some { Mode := "raw", FormData := [],
             Raw :=
               if items.ContainsType "object" then
                 E.marshalIndentRaw [E.buildProperties c itemSchema.Properties] "" "\t"
               else
                 E.marshalIndent
                   [E.buildPropertyDefaultValue itemSchema.Type_ itemSchema.Format] "" "\t" } := by
  have hreq : isRequiredBody param = true :=
    (List.mem_filter.mp (honly ▸ List.mem_singleton_self param)).2
  rw [buildPostmanBody_single E c operation param hno honly]
  simp [derefOk, rawStep, hreq, hschema, harr, hitems, hitem, SchemaOrArray.ContainsType]

theorem buildPostmanBody_array_witness :
    (∀ p ∈ createPets.Parameters, p.In ≠ "formData") ∧
      createPets.Parameters.filter (fun p => p.Required && p.In == "body") =
        [{ Name := "pets", In := "body", Required := true, Default := none, Example := none,
           Schema := some (.mk ["array"] "" [] (some (.mk (some petSchema) []))) }] ∧
      buildPostmanBody sampleCollaborators emptyConverter createPets =
        some { Mode := "raw", FormData := [], Raw := "[\n\tobject(id,name)\n]" } :=
  ⟨by decide, rfl,
    buildPostmanBody_array sampleCollaborators emptyConverter createPets
      { Name := "pets", In := "body", Required := true, Default := none, Example := none,
        Schema := some (.mk ["array"] "" [] (some (.mk (some petSchema) []))) }
      (.mk ["array"] "" [] (some (.mk (some petSchema) []))) (.mk (some petSchema) []) petSchema
      (by decide) rfl rfl (by decide) rfl rfl⟩

/-! ## The header collector -/

/-- C4: when every entry of the session mapping has its mapping key as Key
(as in the empty mapping), then in every order of the returned list: if the
first content-type hint is non-blank and no header parameter is named
"Content-Type", the entries with key "Content-Type" are exactly one, valued
the trimmed first hint; and the same for the first accept hint and "Accept". -/
theorem buildPostmanHeaders_hints (c : Converter) (operation : Operation)
    (hkeys : ∀ e ∈ c.config.PostmanHeaders.entries, e.2.Key = e.1)
    (l : List Header) (hl : l.Perm (buildPostmanHeaders c operation).1) :
    (∀ first rest, operation.Consumes = first :: rest → 0 < (trimSpace first).length →
        (∀ p ∈ operation.Parameters, p.In = "header" → p.Name ≠ "Content-Type") →
        l.filter (fun h => h.Key = "Content-Type") =
          [{ Key := "Content-Type", Value := trimSpace first }]) ∧
      (∀ first rest, operation.Produces = first :: rest → 0 < (trimSpace first).length →
        (∀ p ∈ operation.Parameters, p.In = "header" → p.Name ≠ "Accept") →
        l.filter (fun h => h.Key = "Accept") =
          [{ Key := "Accept", Value := trimSpace first }]) := by
  have hafter : KeysMatch (headersAfter c operation) := keysMatch_headersAfter c operation hkeys
  constructor
  · intro first rest hhint hpos hparams
    have hlook := lookup_headersAfter_hint c operation "Content-Type" (Or.inl rfl) first rest
      (by simpa using hhint) hpos hparams
    rw [← List.perm_singleton, ← filter_rangeHeaders _ _ _ hafter hlook]
    exact hl.filter _
  · intro first rest hhint hpos hparams
    have hlook := lookup_headersAfter_hint c operation "Accept" (Or.inr rfl) first rest
      (by simpa using hhint) hpos hparams
    rw [← List.perm_singleton, ← filter_rangeHeaders _ _ _ hafter hlook]
    exact hl.filter _

theorem buildPostmanHeaders_hints_witness :
    (∀ e ∈ emptyConverter.config.PostmanHeaders.entries, e.2.Key = e.1) ∧
      [({ Key := "Content-Type", Value := "application/json" } : Header),
        { Key := "Accept", Value := "application/json" }].Perm
        (buildPostmanHeaders emptyConverter createPet).1 ∧
      [({ Key := "Content-Type", Value := "application/json" } : Header),
          { Key := "Accept", Value := "application/json" }].filter
          (fun h => h.Key = "Content-Type") =
        [{ Key := "Content-Type", Value := "application/json" }] ∧
      [({ Key := "Content-Type", Value := "application/json" } : Header),
          { Key := "Accept", Value := "application/json" }].filter
          (fun h => h.Key = "Accept") =
        [{ Key := "Accept", Value := "application/json" }] :=
  ⟨by decide, by decide,
    (buildPostmanHeaders_hints emptyConverter createPet (by decide) _ (by decide)).1
      "application/json" [] rfl (by decide) (by decide),
    (buildPostmanHeaders_hints emptyConverter createPet (by decide) _ (by decide)).2
      "application/json" [] rfl (by decide) (by decide)⟩

/-- C5, as stated, fails: a header parameter "X-Limit" whose declared default
is the number 5 and whose declared example is "10" leaves under "X-Limit" an
entry whose Value is the empty string: it is not the declared default, neither
as the value 5 nor as the text "5". -/
theorem buildPostmanHeaders_default_counterexample :
    limitOperation.Parameters.map Parameter.Default = [some (Any.number 5)] ∧
      (buildPostmanHeaders emptyConverter limitOperation).2.config.PostmanHeaders.lookup "X-Limit" =
        some { Key := "X-Limit", Value := "" } ∧
      ¬ ∃ header,
        (buildPostmanHeaders emptyConverter limitOperation).2.config.PostmanHeaders.lookup
            "X-Limit" = some header ∧
          (Any.str header.Value = Any.number 5 ∨ header.Value = "5") := by
  refine ⟨rfl, by decide, ?_⟩
  rintro ⟨header, hlook, hval⟩
  have hentry :
      (buildPostmanHeaders emptyConverter limitOperation).2.config.PostmanHeaders.lookup
        "X-Limit" = some { Key := "X-Limit", Value := "" } := by decide
  rw [hentry, Option.some.injEq] at hlook
  subst hlook
  rcases hval with hval | hval
  · exact Any.noConfusion hval
  · exact absurd hval (by decide)

/-- C5, amended: for a header parameter that no later header parameter of the
same name follows, the session mapping holds under its name, after the call,
the entry whose Key is the name and whose Value is: when a default is
declared, the default if it is a string and the empty string if it is not;
else, when an example is declared, the example if it is a string and the
empty string if it is not; else "string". -/
theorem buildPostmanHeaders_param (c : Converter) (operation : Operation)
    (before : List Parameter) (param : Parameter) (later : List Parameter)
    (hsplit : operation.Parameters = before ++ param :: later)
    (hin : param.In = "header")
    (hlast : ∀ q ∈ later, q.In = "header" → q.Name ≠ param.Name) :
    (buildPostmanHeaders c operation).2.config.PostmanHeaders.lookup param.Name =
      some { Key := param.Name
             Value :=
               match param.Default, param.Example with
               | some (Any.str s), _ => s
               | some _, _ => ""
               | none, some (Any.str s) => s
               | none, some _ => ""
               | none, none => "string" } := by
  have hval : paramValue param =
      (match param.Default, param.Example with
        | some (Any.str s), _ => s
        | some _, _ => ""
        | none, some (Any.str s) => s
        | none, some _ => ""
        | none, none => "string") := by
    unfold paramValue
    rcases param.Default with _ | d <;> rcases param.Example with _ | e
    · rfl
    · cases e <;> rfl
    · cases d <;> rfl
    · cases d <;> rfl
  have hw : paramWrites (param :: later) =
      (param.Name, { Key := param.Name, Value := paramValue param }) :: paramWrites later := by
    simp [paramWrites, List.filter_cons, hin]
  show (headersAfter c operation).config.PostmanHeaders.lookup param.Name = _
  rw [lookup_headersAfter, writes, hsplit, paramWrites_append, hw, lastWrite_append,
    lastWrite_append, lastWrite, lastWrite_paramWrites_none _ _ hlast, ← hval]
  simp

theorem buildPostmanHeaders_param_witness :
    limitOperation.Parameters =
        [] ++ { Name := "X-Limit", In := "header", Required := false,
                Default := some (Any.number 5), Example := some (Any.str "10"),
                Schema := none } :: [] ∧
      (buildPostmanHeaders emptyConverter limitOperation).2.config.PostmanHeaders.lookup "X-Limit" =
        some { Key := "X-Limit", Value := "" } :=
  ⟨rfl,
    buildPostmanHeaders_param emptyConverter limitOperation []
      { Name := "X-Limit", In := "header", Required := false, Default := some (Any.number 5),
        Example := some (Any.str "10"), Schema := none } [] rfl rfl (by simp)⟩

/-- C6: running `buildPostmanHeaders` a second time with the same operation
leaves the mapping of the first run (the same entry under every key, the same
entries up to order), and the second call returns the header entries of the
first, up to order. -/
theorem buildPostmanHeaders_idempotent (c : Converter) (operation : Operation) :
    (∀ k,
        (buildPostmanHeaders (buildPostmanHeaders c operation).2
            operation).2.config.PostmanHeaders.lookup k =
          (buildPostmanHeaders c operation).2.config.PostmanHeaders.lookup k) ∧
      (buildPostmanHeaders (buildPostmanHeaders c operation).2
          operation).2.config.PostmanHeaders.entries.Perm
        (buildPostmanHeaders c operation).2.config.PostmanHeaders.entries ∧
      (buildPostmanHeaders (buildPostmanHeaders c operation).2 operation).1.Perm
        (buildPostmanHeaders c operation).1 := by
  have hlook : ∀ k,
      (headersAfter (headersAfter c operation) operation).config.PostmanHeaders.lookup k =
        (headersAfter c operation).config.PostmanHeaders.lookup k := by
    intro k
    rw [lookup_headersAfter, lookup_headersAfter]
    cases lastWrite (writes operation) k <;> simp
  have hperm := entries_perm_of_lookup_eq _ _ hlook
  exact ⟨hlook, hperm, hperm.map _⟩

/-- C7: `buildPostmanHeaders` removes no key from the session mapping; a key
the operation does not write (neither "Content-Type" nor "Accept" with a
non-blank first hint, nor the name of one of its header parameters) keeps the
entry it had; and such an entry, whatever earlier operation set it, is in
the returned list, in every order of it. -/
theorem buildPostmanHeaders_frame (c : Converter) (operation : Operation) :
    (∀ k, k ∈ c.config.PostmanHeaders →
        k ∈ (buildPostmanHeaders c operation).2.config.PostmanHeaders) ∧
      (∀ k, writesKey operation k = false →
        (buildPostmanHeaders c operation).2.config.PostmanHeaders.lookup k =
          c.config.PostmanHeaders.lookup k) ∧
      (∀ (k : String) (header : Header) (l : List Header),
        c.config.PostmanHeaders.lookup k = some header →
        writesKey operation k = false →
        l.Perm (buildPostmanHeaders c operation).1 → header ∈ l) := by
  have hframe : ∀ k, writesKey operation k = false →
      (headersAfter c operation).config.PostmanHeaders.lookup k =
        c.config.PostmanHeaders.lookup k := by
    intro k hk
    rw [lookup_headersAfter, lastWrite_writes_of_not_writesKey operation k hk]
    simp
  refine ⟨?_, hframe, ?_⟩
  · intro k hk
    show k ∈ (headersAfter c operation).config.PostmanHeaders
    rw [← AList.lookup_isSome] at hk ⊢
    rw [lookup_headersAfter]
    cases lastWrite (writes operation) k with
    | none => simpa using hk
    | some h => simp
  · intro k header l hlook hk hl
    apply hl.symm.subset
    show header ∈ rangeHeaders (headersAfter c operation)
    have h2 := hframe k hk
    rw [hlook] at h2
    have hmem := AList.mem_lookup_iff.mp h2
    exact List.mem_map.mpr ⟨⟨k, header⟩, hmem, rfl⟩

theorem buildPostmanHeaders_frame_witness :
    (buildPostmanHeaders emptyConverter createPet).2.config.PostmanHeaders.lookup "Content-Type" =
        some { Key := "Content-Type", Value := "application/json" } ∧
      writesKey listPets "Content-Type" = false ∧
      [({ Key := "X-Page", Value := "1" } : Header),
          { Key := "Accept", Value := "application/json" },
          { Key := "Content-Type", Value := "application/json" }].Perm
        (buildPostmanHeaders (buildPostmanHeaders emptyConverter createPet).2 listPets).1 ∧
      ({ Key := "Content-Type", Value := "application/json" } : Header) ∈
        [({ Key := "X-Page", Value := "1" } : Header),
          { Key := "Accept", Value := "application/json" },
          { Key := "Content-Type", Value := "application/json" }] :=
  ⟨by decide, by decide, by decide,
    (buildPostmanHeaders_frame (buildPostmanHeaders emptyConverter createPet).2 listPets).2.2
      "Content-Type" { Key := "Content-Type", Value := "application/json" } _
      (by decide) (by decide) (by decide)⟩

/-- C8: when every entry of the session mapping has its mapping key as Key,
the same holds after `buildPostmanHeaders`, the returned list is a permutation
of the entries of the mapping after the call, and in every order of it the
Key fields are the keys of the mapping, each once: no two entries of the
list have the same Key. -/
theorem buildPostmanHeaders_unique (c : Converter) (operation : Operation)
    (hkeys : ∀ e ∈ c.config.PostmanHeaders.entries, e.2.Key = e.1)
    (l : List Header) (hl : l.Perm (buildPostmanHeaders c operation).1) :
    (∀ e ∈ (buildPostmanHeaders c operation).2.config.PostmanHeaders.entries, e.2.Key = e.1) ∧
      (buildPostmanHeaders c operation).1.Perm
        ((buildPostmanHeaders c operation).2.config.PostmanHeaders.entries.map Sigma.snd) ∧
      (l.map Header.Key).Perm (buildPostmanHeaders c operation).2.config.PostmanHeaders.keys ∧
      l.length = (buildPostmanHeaders c operation).2.config.PostmanHeaders.keys.length ∧
      (l.map Header.Key).Nodup := by
  have hafter : KeysMatch (headersAfter c operation) := keysMatch_headersAfter c operation hkeys
  have hmap : (l.map Header.Key).Perm (headersAfter c operation).config.PostmanHeaders.keys := by
    rw [← map_key_rangeHeaders _ hafter]
    exact hl.map _
  refine ⟨hafter, List.Perm.refl _, hmap, ?_, ?_⟩
  · have := hmap.length_eq
    simpa using this
  · exact hmap.nodup_iff.mpr (AList.keys_nodup _)

theorem buildPostmanHeaders_unique_witness :
    (∀ e ∈ (buildPostmanHeaders emptyConverter createPet).2.config.PostmanHeaders.entries,
        e.2.Key = e.1) ∧
      [({ Key := "Accept", Value := "application/json" } : Header),
          { Key := "X-Page", Value := "1" },
          { Key := "Content-Type", Value := "application/json" }].Perm
        (buildPostmanHeaders (buildPostmanHeaders emptyConverter createPet).2 listPets).1 ∧
      ([({ Key := "Accept", Value := "application/json" } : Header),
          { Key := "X-Page", Value := "1" },
          { Key := "Content-Type", Value := "application/json" }].map Header.Key).Nodup :=
  ⟨by decide, by decide,
    (buildPostmanHeaders_unique (buildPostmanHeaders emptyConverter createPet).2 listPets
      (by decide) _ (by decide)).2.2.2.2⟩

/-! ## More on the body -/

theorem rawStep_of_not_decidesRaw (E : Collaborators) (c : Converter) (raw : String)
    (param : Parameter) (h : decidesRaw param = false) : rawStep E c raw param = raw := by
  unfold rawStep
  unfold decidesRaw at h
  cases hreq : isRequiredBody param with
  | false => simp
  | true =>
    rw [hreq] at h
    cases hs : param.Schema with
    | none => simp
    | some schema =>
      rw [hs] at h
      simp only [Bool.true_and, Bool.or_eq_false_iff] at h
      simp [h.1, h.2]

theorem rawStep_of_decidesRaw (E : Collaborators) (c : Converter) (raw : String)
    (param : Parameter) (h : decidesRaw param = true) (hok : derefOk param = true) :
    rawStep E c raw param = rawStep E c "" param := by
  unfold rawStep
  unfold decidesRaw at h
  unfold derefOk at hok
  cases hreq : isRequiredBody param with
  | false => simp [hreq] at h
  | true =>
    rw [hreq] at h hok
    cases hs : param.Schema with
    | none => simp [hs] at h
    | some schema =>
      rw [hs] at h hok
      simp only [Bool.true_and, Bool.or_eq_true, if_true] at h hok
      cases harr : Contains schema.Type_ "array" with
      | true =>
        rw [harr] at hok
        simp only [if_true] at hok
        cases hi : schema.Items with
        | none => simp [hi] at hok
        | some items =>
          rw [hi] at hok
          cases his : items.Schema with
          | none => simp [his] at hok
          | some itemSchema => simp [harr, hi, his]
      | false =>
        have hobj : Contains schema.Type_ "object" = true := by
          rcases h with h | h
          · exact h
          · rw [harr] at h; exact absurd h (by decide)
        simp [hobj, harr]

theorem foldl_rawStep_last (E : Collaborators) (c : Converter) (params : List Parameter)
    (hok : ∀ p ∈ params, derefOk p = true) :
    ∀ raw : String,
      params.foldl (rawStep E c) raw =
        match (params.filter decidesRaw).getLast? with
        | some p => rawStep E c "" p
        | none => raw := by
  induction params with
  | nil => intro raw; rfl
  | cons param rest ih =>
    intro raw
    have hrest : ∀ p ∈ rest, derefOk p = true := fun p hp => hok p (List.mem_cons_of_mem _ hp)
    rw [List.foldl_cons, ih hrest]
    cases hd : decidesRaw param with
    | true =>
      rw [List.filter_cons_of_pos hd, List.getLast?_cons]
      cases (rest.filter decidesRaw).getLast? with
      | none => exact rawStep_of_decidesRaw E c raw param hd (hok param (List.mem_cons_self _ _))
      | some q => rfl
    | false =>
      rw [List.filter_cons_of_neg (by simp [hd]), rawStep_of_not_decidesRaw E c raw param hd]

theorem all_derefOk_of_forall (params : List Parameter)
    (h : ∀ p ∈ params, derefOk p = true) : params.all derefOk = true := by
  simpa [List.all_eq_true] using h

/-- C11, as stated, fails: `annotatePet` and `annotate` have the same last
required body parameter (of type string), and the raw documents returned for
them differ: the first keeps the document of the object parameter that
precedes it, the second is empty. -/
theorem buildPostmanBody_last_counterexample :
    (annotatePet.Parameters.filter (fun p => p.Required && p.In == "body")).getLast? =
        (annotate.Parameters.filter (fun p => p.Required && p.In == "body")).getLast? ∧
      buildPostmanBody sampleCollaborators emptyConverter annotatePet =
        some { Mode := "raw", FormData := [], Raw := "object(id,name)" } ∧
      buildPostmanBody sampleCollaborators emptyConverter annotate =
        some { Mode := "raw", FormData := [], Raw := "" } ∧
      ¬ ((buildPostmanBody sampleCollaborators emptyConverter annotatePet).map RequestBody.Raw =
        (buildPostmanBody sampleCollaborators emptyConverter annotate).map RequestBody.Raw) :=
  ⟨rfl, by decide, by decide, by decide⟩

/-- C11, amended: among the required body parameters, the last one whose
schema type set contains "object" or "array" alone determines the raw
document, with no merging: two operations on which `buildPostmanBody` does not
fail and whose last such parameter is the same get the same raw document,
whatever parameters precede it. -/
theorem buildPostmanBody_last (E : Collaborators) (c : Converter) (first second : Operation)
    (hfirst : ∀ p ∈ first.Parameters, derefOk p = true)
    (hsecond : ∀ p ∈ second.Parameters, derefOk p = true)
    (hlast : (first.Parameters.filter decidesRaw).getLast? =
      (second.Parameters.filter decidesRaw).getLast?) :
    ∃ b1 b2, buildPostmanBody E c first = some b1 ∧ buildPostmanBody E c second = some b2 ∧
      b1.Raw = b2.Raw := by
  rw [buildPostmanBody_eq, buildPostmanBody_eq, all_derefOk_of_forall _ hfirst,
    all_derefOk_of_forall _ hsecond]
  refine ⟨_, _, rfl, rfl, ?_⟩
  simp only
  rw [foldl_rawStep_last E c _ hfirst, foldl_rawStep_last E c _ hsecond, hlast]

theorem buildPostmanBody_last_witness :
    (∀ p ∈ annotatePet.Parameters, derefOk p = true) ∧
      (∀ p ∈ uploadPet.Parameters, derefOk p = true) ∧
      (annotatePet.Parameters.filter decidesRaw).getLast? =
        (uploadPet.Parameters.filter decidesRaw).getLast? ∧
      ∃ b1 b2, buildPostmanBody sampleCollaborators emptyConverter annotatePet = some b1 ∧
        buildPostmanBody sampleCollaborators emptyConverter uploadPet = some b2 ∧
        b1.Raw = b2.Raw :=
  ⟨by decide, by decide, rfl,
    buildPostmanBody_last sampleCollaborators emptyConverter annotatePet uploadPet
      (by decide) (by decide) rfl⟩

/-- C12, as stated, fails: for `uploadPet`, which declares a formData
parameter and a required body parameter of type object, the returned body has
mode "formdata", one form field, and a raw document that is not empty. -/
theorem buildPostmanBody_both_counterexample :
    buildPostmanBody sampleCollaborators emptyConverter uploadPet =
        some { Mode := "formdata",
               FormData := [{ Key := "file", Value := "string", Enabled := true, Type_ := "text" }],
               Raw := "object(id,name)" } ∧
      ¬ ∀ b, buildPostmanBody sampleCollaborators emptyConverter uploadPet = some b →
        b.Mode = "formdata" → b.Raw = "" := by
  refine ⟨by decide, ?_⟩
  intro h
  have hraw := h { Mode := "formdata",
                   FormData := [{ Key := "file", Value := "string", Enabled := true,
                                  Type_ := "text" }],
                   Raw := "object(id,name)" } (by decide) rfl
  exact absurd hraw (by decide)

/-- C12, amended: in every body `buildPostmanBody` returns, when the mode is
"raw" the form-field list is empty; when the mode is "formdata" the form-field
list is not empty; and the raw document is empty when the operation declares
no required body parameter whose schema type set contains "object" or
"array". -/
theorem buildPostmanBody_representations (E : Collaborators) (c : Converter)
    (operation : Operation) (b : RequestBody) (h : buildPostmanBody E c operation = some b) :
    (b.Mode = "raw" → b.FormData = []) ∧ (b.Mode = "formdata" → b.FormData ≠ []) ∧
      ((∀ p ∈ operation.Parameters, decidesRaw p = false) → b.Raw = "") := by
  rw [buildPostmanBody_eq] at h
  by_cases hok : operation.Parameters.all derefOk = true
  · rw [if_pos hok, Option.some.injEq] at h
    subst h
    have hforall : ∀ p ∈ operation.Parameters, derefOk p = true := by
      simpa [List.all_eq_true] using hok
    refine ⟨?_, ?_, ?_⟩
    · cases hf : formFields operation.Parameters with
      | nil => simp
      | cons f fs => simp [hf]
    · cases hf : formFields operation.Parameters with
      | nil => simp [hf]
      | cons f fs => simp
    · intro hnone
      simp only
      rw [foldl_rawStep_last E c _ hforall]
      have : operation.Parameters.filter decidesRaw = [] := by
        rw [List.filter_eq_nil_iff]
        intro p hp
        simp [hnone p hp]
      rw [this]
      rfl
  · rw [if_neg hok] at h
    exact absurd h (by simp)

theorem buildPostmanBody_representations_witness :
    buildPostmanBody sampleCollaborators emptyConverter uploadFile =
        some { Mode := "formdata",
               FormData := [{ Key := "file", Value := "string", Enabled := true, Type_ := "text" }],
               Raw := "" } ∧
      (∀ p ∈ uploadFile.Parameters, decidesRaw p = false) ∧
      ([({ Key := "file", Value := "string", Enabled := true, Type_ := "text" } : FormData)] ≠ []) :=
  ⟨by decide, by decide,
    (buildPostmanBody_representations sampleCollaborators emptyConverter uploadFile
      { Mode := "formdata",
        FormData := [{ Key := "file", Value := "string", Enabled := true, Type_ := "text" }],
        Raw := "" } (by decide)).2.1 rfl⟩

/-! ## More on the request item -/

/-- C13: `buildPostmanItem` fails only when `buildPostmanBody` is called and
dereferences a nil pointer; otherwise the returned item carries exactly one
event, with Listen "test" and the script built from the operation's
extensions, when that script has at least one executable statement, and no
event at all when it has none. -/
theorem buildPostmanItem_event (E : Collaborators) (c : Converter) (url method : String)
    (operation : Operation) :
    (buildPostmanItem E c url method operation).map (fun r => r.1.Event) =
      if (method = "POST" ∨ method = "PUT" ∨ method = "PATCH") ∧
          operation.Parameters.all derefOk = false then none
      else
        some (if 0 < (E.buildPostmanScript operation.Extensions).Exec.length then
                [{ Listen := "test", Script := E.buildPostmanScript operation.Extensions }]
              else []) := by
  unfold buildPostmanItem
  simp only [buildPostmanBody_eq]
  by_cases hm : method = "POST" ∨ method = "PUT" ∨ method = "PATCH"
  · cases hok : operation.Parameters.all derefOk with
    | true => simp [hm]
    | false => simp [hm]
  · simp [hm]

theorem buildPostmanItem_event_witness :
    (buildPostmanItem sampleCollaborators emptyConverter "/pets" "POST" testedPet).map
        (fun r => r.1.Event) =
      some [{ Listen := "test", Script := { Exec := ["x-postman-test"] } }] ∧
    (buildPostmanItem sampleCollaborators emptyConverter "/pets" "POST" createPet).map
        (fun r => r.1.Event) = some [] :=
  ⟨(buildPostmanItem_event sampleCollaborators emptyConverter "/pets" "POST" testedPet).trans
      (by decide),
    (buildPostmanItem_event sampleCollaborators emptyConverter "/pets" "POST" createPet).trans
      (by decide)⟩

/-- C14, the code at the method "post": the item carries the Method "POST"
and the zero body (empty mode), although `buildPostmanBody` on the same
operation returns a body of mode "raw"; with the method "POST" the item
carries that body. -/
theorem buildPostmanItem_lowercase_post :
    (buildPostmanItem sampleCollaborators emptyConverter "/pets" "post" createPet).map
        (fun r => (r.1.Request.Method, r.1.Request.Body)) =
      some ("POST", { Mode := "", FormData := [], Raw := "" }) ∧
    buildPostmanBody sampleCollaborators (headersAfter emptyConverter createPet) createPet =
      some { Mode := "raw", FormData := [], Raw := "object(id,name)" } ∧
    (buildPostmanItem sampleCollaborators emptyConverter "/pets" "POST" createPet).map
        (fun r => (r.1.Request.Method, r.1.Request.Body)) =
      some ("POST", { Mode := "raw", FormData := [], Raw := "object(id,name)" }) := by
  refine ⟨by decide, by decide, by decide⟩

/-! ## Coercion, blank hints, inert parameters, write order, totality -/

theorem lookup_headersAfter_param (c : Converter) (operation : Operation)
    (before : List Parameter) (param : Parameter) (later : List Parameter)
    (hsplit : operation.Parameters = before ++ param :: later)
    (hin : param.In = "header")
    (hlast : ∀ q ∈ later, q.In = "header" → q.Name ≠ param.Name) :
    (headersAfter c operation).config.PostmanHeaders.lookup param.Name =
      some { Key := param.Name, Value := paramValue param } := by
  have hw : paramWrites (param :: later) =
      (param.Name, { Key := param.Name, Value := paramValue param }) :: paramWrites later := by
    simp [paramWrites, List.filter_cons, hin]
  rw [lookup_headersAfter, writes, hsplit, paramWrites_append, hw, lastWrite_append,
    lastWrite_append, lastWrite, lastWrite_paramWrites_none _ _ hlast]
  simp

theorem paramValue_of_mismatch (param : Parameter)
    (hmis : (∃ d, param.Default = some d ∧ ∀ s, d ≠ Any.str s) ∨
      (param.Default = none ∧ ∃ e, param.Example = some e ∧ ∀ s, e ≠ Any.str s)) :
    paramValue param = "" := by
  unfold paramValue
  rcases hmis with ⟨d, hd, hns⟩ | ⟨hd, e, he, hns⟩
  · rw [hd]
    cases d with
    | str s => exact absurd rfl (hns s)
    | number n => rfl
    | bool b => rfl
    | composite j => rfl
  · rw [hd, he]
    cases e with
    | str s => exact absurd rfl (hns s)
    | number n => rfl
    | bool b => rfl
    | composite j => rfl

theorem formFields_append (ps qs : List Parameter) :
    formFields (ps ++ qs) = formFields ps ++ formFields qs := by
  simp [formFields, List.filter_append]

theorem formFields_cons_formData (param : Parameter) (rest : List Parameter)
    (h : param.In = "formData") : formFields (param :: rest) = formField param :: formFields rest := by
  simp [formFields, List.filter_cons, h]

theorem formFields_cons_other (param : Parameter) (rest : List Parameter)
    (h : param.In ≠ "formData") : formFields (param :: rest) = formFields rest := by
  simp [formFields, List.filter_cons, h]

/-- C15: for a parameter whose declared default is not a string, or that has
no default and a declared example that is not a string, the resolved value is
the empty string and the cast raises no failure: located in "header" (and
followed by no header parameter of its name) it leaves the entry of its name
with the empty Value; located in "formData" it gives, at its place in the
form-field list, the field of its name with the empty Value. Neither the
discarded default, nor the example, nor "string" is used. -/
theorem coercion_on_mismatch (E : Collaborators) (c : Converter) (operation : Operation)
    (before : List Parameter) (param : Parameter) (later : List Parameter)
    (hsplit : operation.Parameters = before ++ param :: later)
    (hmis : (∃ d, param.Default = some d ∧ ∀ s, d ≠ Any.str s) ∨
      (param.Default = none ∧ ∃ e, param.Example = some e ∧ ∀ s, e ≠ Any.str s)) :
    (param.In = "header" → (∀ q ∈ later, q.In = "header" → q.Name ≠ param.Name) →
        (buildPostmanHeaders c operation).2.config.PostmanHeaders.lookup param.Name =
          some { Key := param.Name, Value := "" }) ∧
      (param.In = "formData" → (∀ q ∈ operation.Parameters, derefOk q = true) →
        ∃ b, buildPostmanBody E c operation = some b ∧
          b.FormData =
            formFields before ++
              { Key := param.Name, Value := "", Enabled := param.Required, Type_ := "text" } ::
                formFields later) := by
  have hval := paramValue_of_mismatch param hmis
  constructor
  · intro hin hlast
    have := lookup_headersAfter_param c operation before param later hsplit hin hlast
    rw [hval] at this
    exact this
  · intro hin hok
    rw [buildPostmanBody_eq, all_derefOk_of_forall _ hok]
    refine ⟨_, rfl, ?_⟩
    simp only
    rw [hsplit, formFields_append, formFields_cons_formData _ _ hin, formField, hval]

theorem coercion_on_mismatch_witness :
    (buildPostmanHeaders emptyConverter limitOperation).2.config.PostmanHeaders.lookup "X-Limit" =
        some { Key := "X-Limit", Value := "" } ∧
      ∃ b, buildPostmanBody sampleCollaborators emptyConverter flagOperation = some b ∧
        b.FormData = [{ Key := "force", Value := "", Enabled := false, Type_ := "text" }] :=
  ⟨(coercion_on_mismatch sampleCollaborators emptyConverter limitOperation []
      { Name := "X-Limit", In := "header", Required := false, Default := some (.number 5),
        Example := some (.str "10"), Schema := none } [] rfl
      (Or.inl ⟨Any.number 5, rfl, fun s h => Any.noConfusion h⟩)).1 rfl (by simp),
    (coercion_on_mismatch sampleCollaborators emptyConverter flagOperation []
      { Name := "force", In := "formData", Required := false, Default := some (.bool true),
        Example := some (.str "yes"), Schema := none } [] rfl
      (Or.inl ⟨Any.bool true, rfl, fun s h => Any.noConfusion h⟩)).2 rfl (by decide)⟩

theorem writesKey_hint_false (operation : Operation) (key : String)
    (hkey : key = "Content-Type" ∨ key = "Accept")
    (hblank : ∀ first ∈ (if key = "Content-Type" then operation.Consumes
      else operation.Produces).head?, (trimSpace first).length = 0)
    (hparams : ∀ p ∈ operation.Parameters, p.In = "header" → p.Name ≠ key) :
    writesKey operation key = false := by
  have hp : operation.Parameters.any (fun param => param.In == "header" && param.Name == key) =
      false := by
    simp only [List.any_eq_false, Bool.and_eq_true, beq_iff_eq, not_and]
    exact hparams
  unfold writesKey
  rw [hp]
  rcases hkey with rfl | rfl
  · simp only [if_true] at hblank
    cases hc : operation.Consumes.head? with
    | none => simp
    | some first =>
      have := hblank first (by rw [hc]; rfl)
      simp [this]
  · simp only [show ("Accept" = "Content-Type") = False from by decide, if_false] at hblank
    cases hc : operation.Produces.head? with
    | none => simp
    | some first =>
      have := hblank first (by rw [hc]; rfl)
      simp [this]

theorem lookup_headersAfter_frame (c : Converter) (operation : Operation) (k : String)
    (hk : writesKey operation k = false) :
    (headersAfter c operation).config.PostmanHeaders.lookup k =
      c.config.PostmanHeaders.lookup k := by
  rw [lookup_headersAfter, lastWrite_writes_of_not_writesKey operation k hk]
  simp

/-- C16: when the content-type hint list is empty or its first hint is empty
or white space only, whatever the later hints, and no header parameter is named
"Content-Type", `buildPostmanHeaders` leaves the entry of "Content-Type" as it
was, absent or present; and the same for the accept hints and "Accept". -/
theorem buildPostmanHeaders_blank_hint (c : Converter) (operation : Operation) :
    ((∀ first ∈ operation.Consumes.head?, (trimSpace first).length = 0) →
        (∀ p ∈ operation.Parameters, p.In = "header" → p.Name ≠ "Content-Type") →
        (buildPostmanHeaders c operation).2.config.PostmanHeaders.lookup "Content-Type" =
          c.config.PostmanHeaders.lookup "Content-Type") ∧
      ((∀ first ∈ operation.Produces.head?, (trimSpace first).length = 0) →
        (∀ p ∈ operation.Parameters, p.In = "header" → p.Name ≠ "Accept") →
        (buildPostmanHeaders c operation).2.config.PostmanHeaders.lookup "Accept" =
          c.config.PostmanHeaders.lookup "Accept") := by
  constructor
  · intro hblank hparams
    exact lookup_headersAfter_frame c operation "Content-Type"
      (writesKey_hint_false operation "Content-Type" (Or.inl rfl) (by simpa using hblank) hparams)
  · intro hblank hparams
    exact lookup_headersAfter_frame c operation "Accept"
      (writesKey_hint_false operation "Accept" (Or.inr rfl) (by simpa using hblank) hparams)

theorem buildPostmanHeaders_blank_hint_witness :
    (∀ first ∈ blankHintOperation.Consumes.head?, (trimSpace first).length = 0) ∧
      (buildPostmanHeaders emptyConverter xmlOperation).2.config.PostmanHeaders.lookup
          "Content-Type" = some { Key := "Content-Type", Value := "text/xml" } ∧
      (buildPostmanHeaders (buildPostmanHeaders emptyConverter xmlOperation).2
          blankHintOperation).2.config.PostmanHeaders.lookup "Content-Type" =
        some { Key := "Content-Type", Value := "text/xml" } ∧
      (buildPostmanHeaders emptyConverter blankHintOperation).2.config.PostmanHeaders.lookup
          "Accept" = none :=
  ⟨by decide, by decide,
    ((buildPostmanHeaders_blank_hint (buildPostmanHeaders emptyConverter xmlOperation).2
      blankHintOperation).1 (by decide) (by decide)).trans (by decide),
    ((buildPostmanHeaders_blank_hint emptyConverter blankHintOperation).2
      (by decide) (by decide)).trans (by decide)⟩

theorem decidesRaw_of_bodyInert (param : Parameter) (h : bodyInert param = true) :
    decidesRaw param = false := by
  unfold bodyInert at h
  unfold decidesRaw
  cases hreq : isRequiredBody param with
  | false => simp
  | true =>
    rw [hreq] at h
    cases hs : param.Schema with
    | none => simp
    | some schema =>
      rw [hs] at h
      simp only [Bool.and_eq_true, Bool.not_true, Bool.false_or, Bool.not_eq_true'] at h
      simp [h.2.1, h.2.2]

theorem derefOk_of_bodyInert (param : Parameter) (h : bodyInert param = true) :
    derefOk param = true := by
  unfold bodyInert at h
  unfold derefOk
  cases hreq : isRequiredBody param with
  | false => simp
  | true =>
    rw [hreq] at h
    cases hs : param.Schema with
    | none => simp [hs] at h
    | some schema =>
      rw [hs] at h
      simp only [Bool.and_eq_true, Bool.not_true, Bool.false_or, Bool.not_eq_true'] at h
      simp [h.2.2]

theorem not_formData_of_bodyInert (param : Parameter) (h : bodyInert param = true) :
    param.In ≠ "formData" := by
  unfold bodyInert at h
  simp only [Bool.and_eq_true, bne_iff_ne] at h
  exact h.1

/-- C17: removing from the parameter list a parameter that is not located in
"formData" and is not both required and located in "body", or a required body
parameter whose schema type set contains neither "object" nor "array", leaves
the result of `buildPostmanBody` unchanged; and an operation with only such
parameters gets mode "raw", no form field and an empty raw document. -/
theorem buildPostmanBody_inert (E : Collaborators) (c : Converter) (operation : Operation) :
    (∀ before param later, operation.Parameters = before ++ param :: later →
        bodyInert param = true →
        buildPostmanBody E c { operation with Parameters := before ++ later } =
          buildPostmanBody E c operation) ∧
      ((∀ p ∈ operation.Parameters, bodyInert p = true) →
        buildPostmanBody E c operation = some { Mode := "raw", FormData := [], Raw := "" }) := by
  constructor
  · intro before param later hsplit hinert
    rw [buildPostmanBody_eq, buildPostmanBody_eq, hsplit]
    have hall : (before ++ later).all derefOk = (before ++ param :: later).all derefOk := by
      simp [List.all_append, derefOk_of_bodyInert param hinert]
    have hform : formFields (before ++ later) = formFields (before ++ param :: later) := by
      rw [formFields_append, formFields_append,
        formFields_cons_other _ _ (not_formData_of_bodyInert param hinert)]
    have hraw : (before ++ later).foldl (rawStep E c) "" =
        (before ++ param :: later).foldl (rawStep E c) "" := by
      rw [List.foldl_append, List.foldl_append, List.foldl_cons,
        rawStep_of_not_decidesRaw E c _ param (decidesRaw_of_bodyInert param hinert)]
    simp only [hall, hform, hraw]
  · intro hinert
    have hok : ∀ p ∈ operation.Parameters, derefOk p = true :=
      fun p hp => derefOk_of_bodyInert p (hinert p hp)
    have hform : formFields operation.Parameters = [] :=
      formFields_eq_nil _ (fun p hp => not_formData_of_bodyInert p (hinert p hp))
    have hfilter : operation.Parameters.filter decidesRaw = [] := by
      rw [List.filter_eq_nil_iff]
      intro p hp
      simp [decidesRaw_of_bodyInert p (hinert p hp)]
    rw [buildPostmanBody_eq, all_derefOk_of_forall _ hok, hform,
      foldl_rawStep_last E c _ hok, hfilter]
    rfl

theorem buildPostmanBody_inert_witness :
    bodyInert noteParam = true ∧
      buildPostmanBody sampleCollaborators emptyConverter
          { annotatePet with Parameters := [petParam] ++ [] } =
        buildPostmanBody sampleCollaborators emptyConverter annotatePet ∧
      buildPostmanBody sampleCollaborators emptyConverter annotate =
        some { Mode := "raw", FormData := [], Raw := "" } :=
  ⟨by decide,
    (buildPostmanBody_inert sampleCollaborators emptyConverter annotatePet).1
      [petParam] noteParam [] rfl (by decide),
    (buildPostmanBody_inert sampleCollaborators emptyConverter annotate).2 (by decide)⟩

theorem lastWrite_paramWrites (params : List Parameter) (k : String) :
    lastWrite (paramWrites params) k =
      ((params.filter (fun p => p.In == "header" && p.Name == k)).getLast?).map
        (fun p => { Key := p.Name, Value := paramValue p }) := by
  induction params with
  | nil => rfl
  | cons param rest ih =>
    by_cases hin : param.In = "header"
    · have hw : paramWrites (param :: rest) =
          (param.Name, { Key := param.Name, Value := paramValue param }) :: paramWrites rest := by
        simp [paramWrites, List.filter_cons, hin]
      rw [hw, lastWrite, ih]
      by_cases hname : param.Name = k
      · rw [List.filter_cons_of_pos (by simp [hin, hname]), List.getLast?_cons]
        cases (rest.filter (fun p => p.In == "header" && p.Name == k)).getLast? <;> simp [hname]
      · rw [List.filter_cons_of_neg (by simp [hname])]
        simp [hname]
    · have hw : paramWrites (param :: rest) = paramWrites rest := by
        simp [paramWrites, List.filter_cons, hin]
      rw [hw, ih, List.filter_cons_of_neg (by simp [hin])]

theorem lastWrite_hintWrites (key k : String) (hints : List String) :
    lastWrite (hintWrites key hints) k = if key = k then hintHeader key hints else none := by
  unfold hintWrites hintHeader
  cases hints with
  | nil => simp [lastWrite]
  | cons first rest =>
    by_cases hpos : 0 < (trimSpace first).length <;> by_cases hk : key = k <;>
      simp [lastWrite, hpos, hk]

/-- C18: the entry of a key after `buildPostmanHeaders` is decided by the
last write in the order content-type hint, accept hint, header parameters in
list order: it is the entry of the last header parameter of that name, with
the parameter's resolved value, when there is one (also for "Content-Type"
and "Accept", whatever the hint); else the trimmed non-blank first hint for
"Content-Type" and "Accept"; else the entry the mapping had before. -/
theorem buildPostmanHeaders_last_write (c : Converter) (operation : Operation) (k : String) :
    (buildPostmanHeaders c operation).2.config.PostmanHeaders.lookup k =
      match (operation.Parameters.filter (fun p => p.In == "header" && p.Name == k)).getLast? with
      | some p => some { Key := p.Name, Value := paramValue p }
      | none =>
        if k = "Accept" then
          (hintHeader "Accept" operation.Produces).or (c.config.PostmanHeaders.lookup k)
        else if k = "Content-Type" then
          (hintHeader "Content-Type" operation.Consumes).or (c.config.PostmanHeaders.lookup k)
        else c.config.PostmanHeaders.lookup k := by
  show (headersAfter c operation).config.PostmanHeaders.lookup k = _
  rw [lookup_headersAfter, writes, lastWrite_append, lastWrite_append, lastWrite_paramWrites,
    lastWrite_hintWrites, lastWrite_hintWrites]
  cases (operation.Parameters.filter (fun p => p.In == "header" && p.Name == k)).getLast? with
  | some p => simp
  | none =>
    by_cases ha : k = "Accept"
    · subst ha
      simp
    · by_cases hc : k = "Content-Type"
      · subst hc
        simp
      · simp [ha, hc, Ne.symm ha, Ne.symm hc]

theorem buildPostmanHeaders_last_write_witness :
    (buildPostmanHeaders emptyConverter overrideOperation).2.config.PostmanHeaders.lookup
        "Content-Type" = some { Key := "Content-Type", Value := "text/xml" } ∧
      (buildPostmanHeaders emptyConverter overrideOperation).2.config.PostmanHeaders.lookup
        "X-Trace" = some { Key := "X-Trace", Value := "b" } ∧
      (buildPostmanHeaders emptyConverter createPet).2.config.PostmanHeaders.lookup
        "Content-Type" = some { Key := "Content-Type", Value := "application/json" } :=
  ⟨(buildPostmanHeaders_last_write emptyConverter overrideOperation "Content-Type").trans
      (by decide),
    (buildPostmanHeaders_last_write emptyConverter overrideOperation "X-Trace").trans (by decide),
    (buildPostmanHeaders_last_write emptyConverter createPet "Content-Type").trans (by decide)⟩

theorem buildPostmanBody_none_of_not_derefOk (E : Collaborators) (c : Converter)
    (operation : Operation) (param : Parameter) (hmem : param ∈ operation.Parameters)
    (hbad : derefOk param = false) : buildPostmanBody E c operation = none := by
  rw [buildPostmanBody_eq]
  have : operation.Parameters.all derefOk = false := by
    rw [List.all_eq_false]
    exact ⟨param, hmem, by simp [hbad]⟩
  simp [this]

/-- C19: `buildPostmanBody` returns a body for every operation in which each
required body parameter carries a schema and, when the type set of that schema
contains "array", its items are of type object or carry a single item schema;
it fails when some required body parameter has no schema, and when some
required body parameter of type array has no item schema. -/
theorem buildPostmanBody_total (E : Collaborators) (c : Converter) (operation : Operation) :
    ((∀ p ∈ operation.Parameters, p.Required = true → p.In = "body" →
        ∃ schema, p.Schema = some schema ∧
          (Contains schema.Type_ "array" = true →
            (∃ items, schema.Items = some items ∧ items.ContainsType "object" = true) ∨
              (∃ items itemSchema, schema.Items = some items ∧
                items.Schema = some itemSchema))) →
        ∃ b, buildPostmanBody E c operation = some b) ∧
      ((∃ p ∈ operation.Parameters, p.Required = true ∧ p.In = "body" ∧ p.Schema = none) →
        buildPostmanBody E c operation = none) ∧
      ((∃ p ∈ operation.Parameters, p.Required = true ∧ p.In = "body" ∧
          ∃ schema, p.Schema = some schema ∧ Contains schema.Type_ "array" = true ∧
            ∀ items, schema.Items = some items → items.Schema = none) →
        buildPostmanBody E c operation = none) := by
  refine ⟨?_, ?_, ?_⟩
  · intro h
    have hok : ∀ p ∈ operation.Parameters, derefOk p = true := by
      intro p hp
      unfold derefOk
      cases hreq : isRequiredBody p with
      | false => simp
      | true =>
        simp only [isRequiredBody, Bool.and_eq_true, beq_iff_eq] at hreq
        obtain ⟨schema, hs, harr⟩ := h p hp hreq.1 hreq.2
        rw [hs]
        cases ha : Contains schema.Type_ "array" with
        | false => simp [ha]
        | true =>
          rcases harr ha with ⟨items, hi, hobj⟩ | ⟨items, itemSchema, hi, his⟩
          · unfold SchemaOrArray.ContainsType at hobj
            cases his : items.Schema with
            | none => rw [his] at hobj; exact absurd hobj (by simp)
            | some itemSchema => simp [ha, hi, his]
          · simp [ha, hi, his]
    rw [buildPostmanBody_eq, all_derefOk_of_forall _ hok]
    exact ⟨_, rfl⟩
  · rintro ⟨p, hp, hreq, hbody, hs⟩
    apply buildPostmanBody_none_of_not_derefOk E c operation p hp
    simp [derefOk, isRequiredBody, hreq, hbody, hs]
  · rintro ⟨p, hp, hreq, hbody, schema, hs, harr, hitems⟩
    apply buildPostmanBody_none_of_not_derefOk E c operation p hp
    cases hi : schema.Items with
    | none => simp [derefOk, isRequiredBody, hreq, hbody, hs, harr, hi]
    | some items => simp [derefOk, isRequiredBody, hreq, hbody, hs, harr, hi, hitems items hi]

theorem buildPostmanBody_total_witness :
    (∃ b, buildPostmanBody sampleCollaborators emptyConverter createPets = some b) ∧
      buildPostmanBody sampleCollaborators emptyConverter uploadOperation = none ∧
      buildPostmanBody sampleCollaborators emptyConverter tupleOperation = none :=
  ⟨(buildPostmanBody_total sampleCollaborators emptyConverter createPets).1 (by
      intro p hp _ _
      simp only [createPets, List.mem_singleton] at hp
      subst hp
      exact ⟨_, rfl, fun _ => Or.inr ⟨_, _, rfl, rfl⟩⟩),
    (buildPostmanBody_total sampleCollaborators emptyConverter uploadOperation).2.1
      ⟨{ Name := "payload", In := "body", Required := true, Default := none, Example := none,
         Schema := none }, by simp [uploadOperation], rfl, rfl, rfl⟩,
    (buildPostmanBody_total sampleCollaborators emptyConverter tupleOperation).2.2
      ⟨_, List.mem_singleton_self _, rfl, rfl, _, rfl, by decide, by
        intro items hi
        simp only [Schema.Items, Option.some.injEq] at hi
        subst hi
        rfl⟩⟩

end Postmanify
